import Mathlib

/-!
Verification of the ByteGuard hybrid-encryption file-sharing repository.

The client-side cryptographic pipeline (client/src/crypto/pqc.js,
pages/Encryption.jsx, components/modals/ReceiveModal.jsx,
components/modals/ShareModal.jsx) and the Express backend
(backend/routes/auth.js, backend/routes/files.js, backend/db.js) are
shallowly embedded below.  Bytes are `Nat`, byte strings are `List Nat`.
The external library primitives (WebCrypto AES-GCM, crystals-kyber-js,
SHA-256) are not part of the repository; they enter the model as abstract
function parameters constrained only by their documented shapes.
-/

namespace ByteGuard

/-- JavaScript `Array.prototype.slice` index resolution: negative indices
count from the end, everything is clamped into `[0, len]`. -/
def jsIdx (len : Nat) (i : Int) : Nat :=
  if i < 0 then ((len : Int) + i).toNat else min i.toNat len

/-- JavaScript `xs.slice(s, e)` on a byte array. -/
def jsSlice (xs : List Nat) (s e : Int) : List Nat :=
  (xs.take (jsIdx xs.length e)).drop (jsIdx xs.length s)

/-- The 32-iteration XOR loop of `wrapAESKeyWithKyber` /
`unwrapAESKeyWithKyber` in crypto/pqc.js:
`for (let i = 0; i < 32; i++) out[i] = a[i] ^ b[i]`. -/
def xor32 (a b : List Nat) : List Nat :=
  (List.range 32).map fun i => a.getD i 0 ^^^ b.getD i 0

/-- CTR keystream masking: models the stream-cipher part of AES-GCM.
`ks` is the (abstract) keystream byte at each index. -/
def xorStream (ks : Nat → Nat) : Nat → List Nat → List Nat
  | _, [] => []
  | i, b :: bs => (b ^^^ ks i) :: xorStream ks (i + 1) bs

/-- Abstract model of the WebCrypto AES-256-GCM primitive used by
crypto/pqc.js (an external library, not repository code): a keystream
function and a 16-byte tag function, both depending on key and IV. -/
structure GCMModel where
  ks : List Nat → List Nat → Nat → Nat
  tagByte : List Nat → List Nat → List Nat → Nat → Nat

/-- The 16-byte GCM authentication tag over the raw ciphertext. -/
def gcmTag (M : GCMModel) (key iv raw : List Nat) : List Nat :=
  (List.range 16).map (M.tagByte key iv raw)

/-- `encryptAES` from crypto/pqc.js: WebCrypto AES-GCM with
`tagLength: 128` returns ciphertext with the 16-byte tag appended. -/
def encryptAES (M : GCMModel) (key iv pt : List Nat) : List Nat :=
  xorStream (M.ks key iv) 0 pt ++ gcmTag M key iv (xorStream (M.ks key iv) 0 pt)

/-- `decryptAES` from crypto/pqc.js: WebCrypto AES-GCM decryption —
verify the trailing 16-byte tag, return the plaintext only on success. -/
def decryptAES (M : GCMModel) (key iv ct : List Nat) : Option (List Nat) :=
  if ct.length < 16 then none
  else if ct.drop (ct.length - 16) = gcmTag M key iv (ct.take (ct.length - 16))
  then some (xorStream (M.ks key iv) 0 (ct.take (ct.length - 16)))
  else none

/-- Abstract model of the crystals-kyber-js Kyber-512 KEM (an external
library, not repository code). Encapsulation randomness is folded into
the model instance. -/
structure KEMModel where
  encapCt : List Nat → List Nat
  encapSs : List Nat → List Nat
  decap : List Nat → List Nat → List Nat

/-- `wrapAESKeyWithKyber` from crypto/pqc.js: encapsulate against the
recipient public key, XOR the 32-byte AES key with the shared secret. -/
def wrapAESKeyWithKyber (K : KEMModel) (aesKeyBytes recipientPublicKey : List Nat) :
    List Nat × List Nat :=
  (K.encapCt recipientPublicKey, xor32 aesKeyBytes (K.encapSs recipientPublicKey))

/-- `unwrapAESKeyWithKyber` from crypto/pqc.js: decapsulate, XOR the
wrapped key with the recovered shared secret. -/
def unwrapAESKeyWithKyber (K : KEMModel) (kemCiphertext wrappedKey privateKey : List Nat) :
    List Nat :=
  xor32 wrappedKey (K.decap kemCiphertext privateKey)

/-- The sixteen lowercase hex digits used by
`b.toString(16).padStart(2, '0')`. -/
def hexDigitChars : List Char :=
  "0123456789abcdef".toList

/-- One byte rendered as two lowercase hex characters
(`b.toString(16).padStart(2, '0')` for `b < 256`). -/
def toHexByte (b : Nat) : List Char :=
  [hexDigitChars.getD (b / 16) '0', hexDigitChars.getD (b % 16) '0']

/-- `sha256Hex` from crypto/pqc.js: digest the data with SHA-256 (an
abstract external primitive `sha`), then hex-encode each byte. -/
def sha256Hex (sha : List Nat → List Nat) (data : List Nat) : List Char :=
  ((sha data).map toHexByte).flatten

/-- The result record of the `encrypt` pipeline in pages/Encryption.jsx:
the owner KEM payload (`ownerKemCT` concatenated with `ownerWrappedKey`),
the uploaded blob (`new Blob([iv, ciphertext])`), the bytes passed to
`sha256Hex` (exactly `ciphertext`), and the resulting fingerprint. -/
structure EncOut where
  ownerKemPayload : List Nat
  blob : List Nat
  fingerprintSource : List Nat
  fingerprint : List Char
  deriving DecidableEq

/-- The `encrypt` pipeline of pages/Encryption.jsx, starting from the
freshly exported AES key bytes and the freshly drawn IV: owner-wrap the
key against the owner's own Kyber public key, AES-GCM-encrypt the
plaintext, fingerprint the ciphertext, and assemble the upload blob. -/
def encryptUpload (M : GCMModel) (K : KEMModel) (sha : List Nat → List Nat)
    (aesKeyBytes ownerPublicKey iv pt : List Nat) : EncOut :=
  let w := wrapAESKeyWithKyber K aesKeyBytes ownerPublicKey
  let ciphertext := encryptAES M aesKeyBytes iv pt
  { ownerKemPayload := w.1 ++ w.2
    blob := iv ++ ciphertext
    fingerprintSource := ciphertext
    fingerprint := sha256Hex sha ciphertext }

/-- The phases of the `encrypt` pipeline in pages/Encryption.jsx, in
source order (`setPhase(1)` … `setPhase(5)` after reading the file). -/
inductive EncPhase where
  | readFile
  | genAesKey
  | ownerWrapPhase
  | aesEncryptPhase
  | sha256Phase
  | uploadPhase
  deriving DecidableEq

/-- The control flow of `encrypt` in pages/Encryption.jsx as a function
of the plaintext length: the phase sequence is unconditional — the
source contains no size test, so every phase runs whatever `n` is. -/
def encryptTrace (_n : Nat) : List EncPhase :=
  [EncPhase.readFile, EncPhase.genAesKey, EncPhase.ownerWrapPhase,
   EncPhase.aesEncryptPhase, EncPhase.sha256Phase, EncPhase.uploadPhase]

/-- Step 3 of `ReceiveModal.submit`: split the base64-decoded KEM payload
with `payload.slice(0, payload.length - 32)` and
`payload.slice(payload.length - 32)`.  No length check is made. -/
def receiveSplitKem (payload : List Nat) : List Nat × List Nat :=
  (jsSlice payload 0 ((payload.length : Int) - 32),
   jsSlice payload ((payload.length : Int) - 32) (payload.length : Int))

/-- Steps 3–7 of `ReceiveModal.submit`: split the KEM payload, unwrap
the AES key with the caller's private key, split the downloaded blob as
`slice(0, 12)` (IV) and `slice(12)` (ciphertext), and AES-GCM decrypt. -/
def receiveDecrypt (M : GCMModel) (K : KEMModel) (payload blob privateKey : List Nat) :
    Option (List Nat) :=
  let s := receiveSplitKem payload
  let aesKeyBytes := unwrapAESKeyWithKyber K s.1 s.2 privateKey
  decryptAES M aesKeyBytes (jsSlice blob 0 12) (jsSlice blob 12 (blob.length : Int))

/-- A Kyber keypair record as stored by crypto/keyStore.js. -/
structure Keypair where
  publicKey : List Nat
  privateKey : List Nat
  deriving DecidableEq

/-- Client-side state: the bearer token in localStorage (`hb_token`),
the in-memory user of AuthContext, and the IndexedDB key store of
crypto/keyStore.js (keyed by researcher id). -/
structure ClientState where
  token : Option String
  user : Option String
  keyStore : List (String × Keypair)
  deriving DecidableEq

/-- `getKyberKeypair` from crypto/keyStore.js: look up the keypair
stored under the given researcher id. -/
def getKyberKeypair (userId : String) (st : ClientState) : Option Keypair :=
  (st.keyStore.find? fun e => e.1 = userId).map (·.2)

/-- `clearKeyStore` from crypto/keyStore.js: wipe every stored keypair.
Defined because the source defines it; `logout` never calls it. -/
def clearKeyStore (st : ClientState) : ClientState :=
  { st with keyStore := [] }

/-- `logout` from context/AuthContext.jsx: clear the bearer token and
the in-memory user.  The source explicitly does not touch the key store
("Don't clear key store on logout to preserve keys across sessions"). -/
def logout (st : ClientState) : ClientState :=
  { st with token := none, user := none }

/-- JavaScript truthiness of an optional string request field: `undefined`
and the empty string are falsy. -/
def jsTruthy : Option String → Bool
  | none => false
  | some s => s ≠ ""

/-- JavaScript truthiness of an optional numeric request field: `undefined`
and `0` are falsy. -/
def jsTruthyNat : Option Nat → Bool
  | none => false
  | some n => n ≠ 0

/-- A row of the `sessions` table (backend/db.js). -/
structure SessionRow where
  token : String
  userId : String
  deriving DecidableEq

/-- A row of the `shared_files` table (backend/db.js).  The schema has no
column for a wrapped-key payload. -/
structure SharedRow where
  id : String
  fileId : Nat
  fileName : String
  sender : String
  recipient : String
  permission : String
  shareCode : String
  deriving DecidableEq

/-- A row of the `received_files` table (backend/db.js). -/
structure ReceivedRow where
  id : String
  shareCode : String
  fileName : String
  sender : String
  recipient : String
  permission : String
  content : Option String
  viewed : Bool
  deriving DecidableEq

/-- The server-side SQLite state (backend/db.js): users with their stored
password hashes, sessions, shared-file records and received-file records.
Lists are in insertion (rowid) order. -/
structure DB where
  users : List (String × String)
  sessions : List SessionRow
  shared : List SharedRow
  received : List ReceivedRow
  deriving DecidableEq

/-- Errors surfaced by the Express route handlers. -/
inductive ApiErr where
  | badRequest
  | notFound
  | internal
  deriving DecidableEq

/-- `POST /api/auth/login` (backend/routes/auth.js): reject only when a
field is missing or empty, then mint a token and insert a session.  The
stored password hash in `users` is never consulted. -/
def loginHandler (db : DB) (researcherId accessKey : Option String) (token : String) :
    Except ApiErr (DB × String) :=
  if ¬ (jsTruthy researcherId ∧ jsTruthy accessKey) then
    Except.error ApiErr.badRequest
  else
    match researcherId with
    | none => Except.error ApiErr.badRequest
    | some rid =>
      if db.sessions.any fun s => s.token = token then Except.error ApiErr.internal
      else Except.ok ({ db with sessions := db.sessions ++ [⟨token, rid⟩] }, token)

/-- The body of `POST /api/files/share` as sent by the ShareModal client:
it includes the base64 KEM payload in the `kemCiphertext` field.  The
route handler destructures only `fileId`, `fileName`, `recipient` and
`permission`, so `kemCiphertext` is ignored. -/
structure ShareBody where
  fileId : Option Nat
  fileName : Option String
  recipient : Option String
  permission : Option String
  kemCiphertext : Option String
  deriving DecidableEq

/-- `POST /api/files/share` (backend/routes/files.js): insert a
`shared_files` row and a mirrored `received_files` row with `content`
NULL.  No column of either insert receives the KEM payload. -/
def shareHandler (db : DB) (sender : String) (body : ShareBody) (now shareCode : String) :
    Except ApiErr (DB × SharedRow) :=
  if ¬ (jsTruthy body.recipient ∧ jsTruthyNat body.fileId) then
    Except.error ApiErr.badRequest
  else
    match body.recipient, body.fileId with
    | some recip, some fid =>
      let shareId := "SHARE-" ++ now
      let recvId := "RECV-" ++ now
      if db.shared.any (fun r => r.id = shareId) ∨
         db.received.any (fun r => r.id = recvId) then
        Except.error ApiErr.internal
      else
        let perm := match body.permission with
          | some p => if p = "" then "view" else p
          | none => "view"
        let fname := body.fileName.getD ""
        let srow : SharedRow :=
          ⟨shareId, fid, fname, sender, recip, perm, shareCode⟩
        let rrow : ReceivedRow :=
          ⟨recvId, shareCode, fname, sender, recip, perm, none, false⟩
        Except.ok ({ db with shared := db.shared ++ [srow],
                             received := db.received ++ [rrow] }, srow)
    | _, _ => Except.error ApiErr.badRequest

/-- `DELETE /api/files/shared/:id` (backend/routes/files.js): run
`DELETE FROM shared_files WHERE id = ? AND sender = ?`; 404 when no row
was deleted.  The `received_files` table is not touched. -/
def revokeHandler (db : DB) (shareId sender : String) : Except ApiErr DB :=
  if db.shared.any fun r => r.id = shareId ∧ r.sender = sender then
    Except.ok { db with
      shared := db.shared.filter fun r => ¬ (r.id = shareId ∧ r.sender = sender) }
  else
    Except.error ApiErr.notFound

/-- `GET /api/files/received` (backend/routes/files.js):
`SELECT * FROM received_files WHERE recipient = ? ORDER BY rowid DESC`. -/
def getReceived (db : DB) (recipient : String) : List ReceivedRow :=
  (db.received.filter fun r => r.recipient = recipient).reverse

/-- The body of `POST /api/files/receive`. -/
structure ReceiveBody where
  shareCode : Option String
  content : Option String
  deriving DecidableEq

/-- `POST /api/files/receive` (backend/routes/files.js): insert a
`received_files` row for the caller with sender `'Unknown'`, permission
`'download'`, the supplied share code (or a `MANUAL-` placeholder when
absent or empty), and the supplied content (`content || null`), without
any check that a share with that code exists. -/
def recvRow (caller : String) (body : ReceiveBody) (now dateStr : String) : ReceivedRow :=
  ⟨"RECV-" ++ now,
   (match body.shareCode with
    | some s => if s = "" then "MANUAL-" ++ now else s
    | none => "MANUAL-" ++ now),
   "Received File " ++ dateStr,
   "Unknown", caller, "download",
   (match body.content with
    | some s => if s = "" then none else some s
    | none => none),
   false⟩

/-- `POST /api/files/receive` (backend/routes/files.js): insert the
`received_files` row described by `recvRow`, then read it back with
`getReceivedItem` and return it. -/
def receiveHandler (db : DB) (caller : String) (body : ReceiveBody)
    (now dateStr : String) : Except ApiErr (DB × ReceivedRow) :=
  if db.received.any (fun r => r.id = "RECV-" ++ now) then Except.error ApiErr.internal
  else
    let rrow := recvRow caller body now dateStr
    let db' := { db with received := db.received ++ [rrow] }
    match (db'.received.filter fun r => r.id = "RECV-" ++ now ∧ r.recipient = caller).head? with
    | some row => Except.ok (db', row)
    | none => Except.error ApiErr.notFound

/-- A trivial concrete AES-GCM model instance: zero keystream, zero tag.
Used to instantiate the abstract primitive in concrete evaluations. -/
def zeroGCM : GCMModel :=
  ⟨fun _ _ _ => 0, fun _ _ _ _ => 0⟩

/-- A trivial concrete Kyber model instance: empty encapsulation
ciphertext, all-zero 32-byte shared secret, matching decapsulation. -/
def zeroKEM : KEMModel :=
  ⟨fun _ => [], fun _ => List.replicate 32 0, fun _ _ => List.replicate 32 0⟩

/-- A trivial concrete stand-in for the abstract SHA-256 primitive:
digest one byte recording the input length. -/
def lenSha (l : List Nat) : List Nat :=
  [l.length % 256]

/-- A server state holding one registered user with a stored password
hash, used to evaluate the login route. -/
def dbAlice : DB :=
  ⟨[("alice", "stored-hash-of-correct-password")], [], [], []⟩

/-- The empty server state. -/
def dbEmpty : DB :=
  ⟨[], [], [], []⟩

/-- A concrete share request as sent by the ShareModal client: it
carries the base64 wrapped-key payload in `kemCiphertext`. -/
def shareBodyEx : ShareBody :=
  ⟨some 1, some "notes.txt", some "bob", some "view", some "KEMPAYLOAD_B64"⟩

/-- The `shared_files` row the share handler inserts for `shareBodyEx`. -/
def sharedRowEx : SharedRow :=
  ⟨"SHARE-1700", 1, "notes.txt", "alice", "bob", "view", "ABC123"⟩

/-- The mirrored `received_files` row the share handler inserts for
`shareBodyEx`; its `content` column is NULL. -/
def receivedRowEx : ReceivedRow :=
  ⟨"RECV-1700", "ABC123", "notes.txt", "alice", "bob", "view", none, false⟩

/-- The server state after the concrete share request. -/
def dbAfterShare : DB :=
  ⟨[], [], [sharedRowEx], [receivedRowEx]⟩

end ByteGuard

namespace ByteGuard

theorem xorStream_length (ks : Nat → Nat) (i : Nat) (bs : List Nat) :
    (xorStream ks i bs).length = bs.length := by
  induction bs generalizing i with
  | nil => rfl
  | cons b bs ih => simp [xorStream, ih]

theorem xorStream_involutive (ks : Nat → Nat) (i : Nat) (bs : List Nat) :
    xorStream ks i (xorStream ks i bs) = bs := by
  induction bs generalizing i with
  | nil => rfl
  | cons b bs ih => simp [xorStream, ih, Nat.xor_cancel_right]

theorem gcmTag_length (M : GCMModel) (key iv raw : List Nat) :
    (gcmTag M key iv raw).length = 16 := by
  simp [gcmTag]

theorem encryptAES_length (M : GCMModel) (key iv pt : List Nat) :
    (encryptAES M key iv pt).length = pt.length + 16 := by
  simp [encryptAES, xorStream_length, gcmTag_length]

theorem decryptAES_encryptAES (M : GCMModel) (key iv pt : List Nat) :
    decryptAES M key iv (encryptAES M key iv pt) = some pt := by
  have hlen : (encryptAES M key iv pt).length = pt.length + 16 :=
    encryptAES_length M key iv pt
  have hxl : (xorStream (M.ks key iv) 0 pt).length = pt.length :=
    xorStream_length _ 0 pt
  have htake :
      (encryptAES M key iv pt).take ((encryptAES M key iv pt).length - 16)
        = xorStream (M.ks key iv) 0 pt := by
    rw [hlen, Nat.add_sub_cancel, encryptAES, ← hxl, List.take_left]
  have hdrop :
      (encryptAES M key iv pt).drop ((encryptAES M key iv pt).length - 16)
        = gcmTag M key iv (xorStream (M.ks key iv) 0 pt) := by
    rw [hlen, Nat.add_sub_cancel, encryptAES, ← hxl, List.drop_left]
  rw [decryptAES, if_neg (by omega), htake, hdrop, if_pos rfl,
    xorStream_involutive]

theorem getD_map_range {α : Type} (f : Nat → α) (d : α) (i n : Nat) (h : i < n) :
    ((List.range n).map f).getD i d = f i := by
  rw [List.getD_eq_getElem?_getD, List.getElem?_map, List.getElem?_range h]
  rfl

theorem map_range_getD {α : Type} (d : α) (k : List α) :
    (List.range k.length).map (fun i => k.getD i d) = k := by
  induction k with
  | nil => rfl
  | cons a k ih =>
    rw [List.length_cons, List.range_succ_eq_map, List.map_cons, List.map_map]
    simp only [Function.comp_def, Nat.succ_eq_add_one, List.getD_cons_zero,
      List.getD_cons_succ]
    rw [ih]

theorem xor32_length (a b : List Nat) : (xor32 a b).length = 32 := by
  simp [xor32]

theorem xor32_xor32_cancel (k s : List Nat) (hk : k.length = 32) :
    xor32 (xor32 k s) s = k := by
  have hmap : ∀ i ∈ List.range 32,
      (xor32 k s).getD i 0 ^^^ s.getD i 0 = k.getD i 0 := by
    intro i hi
    rw [List.mem_range] at hi
    rw [xor32, getD_map_range _ _ _ _ hi, Nat.xor_cancel_right]
  calc xor32 (xor32 k s) s
      = (List.range 32).map (fun i => k.getD i 0) := by
        rw [xor32]
        exact List.map_congr_left hmap
    _ = k := by rw [← hk]; exact map_range_getD 0 k

theorem jsIdx_zero (len : Nat) : jsIdx len 0 = 0 := by
  simp [jsIdx]

theorem jsIdx_sub32 (len : Nat) (h : 32 ≤ len) :
    jsIdx len ((len : Int) - 32) = len - 32 := by
  unfold jsIdx
  rw [if_neg (by omega)]
  omega

theorem jsIdx_len (len : Nat) : jsIdx len (len : Int) = len := by
  unfold jsIdx
  rw [if_neg (by omega)]
  omega

theorem jsIdx_twelve (len : Nat) (h : 12 ≤ len) : jsIdx len 12 = 12 := by
  unfold jsIdx
  rw [if_neg (by omega)]
  omega

theorem receiveSplitKem_append (a b : List Nat) (hb : b.length = 32) :
    receiveSplitKem (a ++ b) = (a, b) := by
  have hlen : (a ++ b).length = a.length + 32 := by simp [hb]
  unfold receiveSplitKem jsSlice
  rw [hlen, jsIdx_zero, jsIdx_sub32 _ (by omega), jsIdx_len]
  have h1 : a.length + 32 - 32 = a.length := by omega
  rw [h1, ← hlen, List.take_length, List.drop_zero]
  have h2 : (a ++ b).take a.length = a := List.take_left a b
  have h3 : (a ++ b).drop a.length = b := List.drop_left a b
  rw [h2, h3]

theorem jsSlice_blob_iv (iv ct : List Nat) (hiv : iv.length = 12) :
    jsSlice (iv ++ ct) 0 12 = iv := by
  unfold jsSlice
  have hlen : (iv ++ ct).length = 12 + ct.length := by simp [hiv]
  rw [hlen, jsIdx_zero, jsIdx_twelve _ (by omega), List.drop_zero, ← hiv,
    List.take_left]

theorem jsSlice_blob_ct (iv ct : List Nat) (hiv : iv.length = 12) :
    jsSlice (iv ++ ct) 12 ((iv ++ ct).length : Int) = ct := by
  unfold jsSlice
  rw [jsIdx_len, List.take_length]
  have h : jsIdx (iv ++ ct).length 12 = iv.length := by
    rw [hiv]
    exact jsIdx_twelve _ (by rw [List.length_append, hiv]; omega)
  rw [h, List.drop_left]

/-- C1: wrapping a 32-byte AES key against a Kyber public key and
unwrapping the resulting payload with the matching private key returns
the key, provided decapsulation of the encapsulation ciphertext yields
the encapsulated shared secret; consequently the full
encrypt-and-upload / receive-and-decrypt pipeline returns every
plaintext (including the empty one) bit-exact. -/
theorem wrap_unwrap_roundtrip (M : GCMModel) (K : KEMModel)
    (sha : List Nat → List Nat) (k pk sk iv pt : List Nat)
    (hk : k.length = 32) (hiv : iv.length = 12)
    (hdec : K.decap (K.encapCt pk) sk = K.encapSs pk) :
    unwrapAESKeyWithKyber K (wrapAESKeyWithKyber K k pk).1
        (wrapAESKeyWithKyber K k pk).2 sk = k
    ∧ receiveDecrypt M K (encryptUpload M K sha k pk iv pt).ownerKemPayload
        (encryptUpload M K sha k pk iv pt).blob sk = some pt := by
  have hunwrap : unwrapAESKeyWithKyber K (wrapAESKeyWithKyber K k pk).1
      (wrapAESKeyWithKyber K k pk).2 sk = k := by
    rw [wrapAESKeyWithKyber, unwrapAESKeyWithKyber, hdec]
    exact xor32_xor32_cancel k _ hk
  refine ⟨hunwrap, ?_⟩
  have hpayload : (encryptUpload M K sha k pk iv pt).ownerKemPayload
      = K.encapCt pk ++ xor32 k (K.encapSs pk) := rfl
  have hblob : (encryptUpload M K sha k pk iv pt).blob
      = iv ++ encryptAES M k iv pt := rfl
  rw [receiveDecrypt, hpayload, hblob,
    receiveSplitKem_append _ _ (xor32_length k _)]
  have hkey : unwrapAESKeyWithKyber K (K.encapCt pk) (xor32 k (K.encapSs pk)) sk = k := by
    rw [unwrapAESKeyWithKyber, hdec]
    exact xor32_xor32_cancel k _ hk
  rw [hkey, jsSlice_blob_iv _ _ hiv, jsSlice_blob_ct _ _ hiv,
    decryptAES_encryptAES]

/-- C5: the uploaded blob is `IV ∥ AES-GCM ciphertext ∥ tag`, of length
exactly `12 + plaintext-length + 16`, with the 16-byte GCM tag as its
final 16 bytes; the blob for an empty plaintext is exactly 28 bytes. -/
theorem blob_length_spec (M : GCMModel) (K : KEMModel)
    (sha : List Nat → List Nat) (k pk iv pt : List Nat)
    (hiv : iv.length = 12) :
    (encryptUpload M K sha k pk iv pt).blob.length = 12 + pt.length + 16
    ∧ (encryptUpload M K sha k pk iv pt).blob.drop (12 + pt.length)
        = gcmTag M k iv (xorStream (M.ks k iv) 0 pt)
    ∧ (pt = [] → (encryptUpload M K sha k pk iv pt).blob.length = 28) := by
  have hblob : (encryptUpload M K sha k pk iv pt).blob
      = iv ++ encryptAES M k iv pt := rfl
  have hlen : (encryptUpload M K sha k pk iv pt).blob.length
      = 12 + pt.length + 16 := by
    rw [hblob, List.length_append, hiv, encryptAES_length]
    omega
  refine ⟨hlen, ?_, fun hpt => by rw [hlen, hpt]; rfl⟩
  rw [hblob, encryptAES, ← List.append_assoc]
  have hfront : (iv ++ xorStream (M.ks k iv) 0 pt).length = 12 + pt.length := by
    rw [List.length_append, hiv, xorStream_length]
  rw [← hfront, List.drop_left]

/-- C1 witness: the round trip holds at a concrete 32-byte key, concrete
primitive instances and the concrete plaintext `[1, 2, 3]`. -/
theorem wrap_unwrap_roundtrip_witness :
    unwrapAESKeyWithKyber zeroKEM
        (wrapAESKeyWithKyber zeroKEM (List.replicate 32 7) []).1
        (wrapAESKeyWithKyber zeroKEM (List.replicate 32 7) []).2 []
      = List.replicate 32 7
    ∧ receiveDecrypt zeroGCM zeroKEM
        (encryptUpload zeroGCM zeroKEM lenSha (List.replicate 32 7) []
          (List.replicate 12 0) [1, 2, 3]).ownerKemPayload
        (encryptUpload zeroGCM zeroKEM lenSha (List.replicate 32 7) []
          (List.replicate 12 0) [1, 2, 3]).blob []
      = some [1, 2, 3] :=
  wrap_unwrap_roundtrip zeroGCM zeroKEM lenSha (List.replicate 32 7) [] []
    (List.replicate 12 0) [1, 2, 3] (by decide) (by decide) (by decide)

/-- C5 witness: the blob-length invariant at a concrete two-byte
plaintext and concrete primitive instances. -/
theorem blob_length_spec_witness :
    (encryptUpload zeroGCM zeroKEM lenSha (List.replicate 32 0) []
        (List.replicate 12 0) [9, 9]).blob.length = 12 + ([9, 9] : List Nat).length + 16
    ∧ (encryptUpload zeroGCM zeroKEM lenSha (List.replicate 32 0) []
        (List.replicate 12 0) [9, 9]).blob.drop (12 + ([9, 9] : List Nat).length)
      = gcmTag zeroGCM (List.replicate 32 0) (List.replicate 12 0)
          (xorStream (zeroGCM.ks (List.replicate 32 0) (List.replicate 12 0)) 0 [9, 9])
    ∧ (([9, 9] : List Nat) = [] →
        (encryptUpload zeroGCM zeroKEM lenSha (List.replicate 32 0) []
          (List.replicate 12 0) [9, 9]).blob.length = 28) :=
  blob_length_spec zeroGCM zeroKEM lenSha (List.replicate 32 0) []
    (List.replicate 12 0) [9, 9] (by decide)

/-- C2: evaluation of `POST /api/auth/login` at a credential pair whose
access key does not match the stored verifier for `alice`: the handler
issues a fresh session token anyway — the `users` table with its stored
password hash is never consulted and no BadCredentials error exists. -/
theorem login_ignores_verifier :
    loginHandler dbAlice (some "alice") (some "wrong-password") "tok1"
      = Except.ok ({ dbAlice with sessions := [⟨"tok1", "alice"⟩] }, "tok1")
    ∧ dbAlice.users = [("alice", "stored-hash-of-correct-password")] := by
  constructor
  · rfl
  · rfl

/-- C3: evaluation of `POST /api/files/share` at a request carrying a
wrapped-key payload in `kemCiphertext`: the handler succeeds, but the
inserted `shared_files` row has no payload column at all and the
mirrored `received_files` row stores `content = NULL`; the recipient's
subsequent fetch therefore never returns the payload. -/
theorem share_drops_payload :
    shareHandler dbEmpty "alice" shareBodyEx "1700" "ABC123"
      = Except.ok (dbAfterShare, sharedRowEx)
    ∧ shareBodyEx.kemCiphertext = some "KEMPAYLOAD_B64"
    ∧ getReceived dbAfterShare "bob" = [receivedRowEx]
    ∧ receivedRowEx.content = none := by
  refine ⟨rfl, rfl, ?_, rfl⟩
  rfl

/-- C4: evaluation of `DELETE /api/files/shared/:id` after the concrete
share: the revoke succeeds and deletes the `shared_files` row, but the
recipient's `received_files` row (with the issued share code) survives
and is still returned to the recipient afterwards. -/
theorem revoke_leaves_received :
    revokeHandler dbAfterShare "SHARE-1700" "alice"
      = Except.ok ⟨[], [], [], [receivedRowEx]⟩
    ∧ getReceived ⟨[], [], [], [receivedRowEx]⟩ "bob" = [receivedRowEx]
    ∧ receivedRowEx.shareCode = "ABC123"
    ∧ receivedRowEx.recipient = "bob" := by
  refine ⟨?_, rfl, rfl, rfl⟩
  rfl

theorem getD_hexDigitChars_mem (i : Nat) : hexDigitChars.getD i '0' ∈ hexDigitChars := by
  by_cases h : i < hexDigitChars.length
  · rw [List.getD_eq_getElem?_getD, List.getElem?_eq_getElem h, Option.getD_some]
    exact List.getElem_mem h
  · rw [List.getD_eq_default _ _ (by omega)]
    decide

/-- C6 counterexample: at a concrete empty plaintext the fingerprint the
pipeline computes differs from the hex digest of the stored blob bytes,
because the bytes passed to the hash are the ciphertext-and-tag only
(16 bytes here) while the blob carries the 12-byte IV prefix as well. -/
theorem fingerprint_not_blob_hash :
    (encryptUpload zeroGCM zeroKEM lenSha (List.replicate 32 0) []
        (List.replicate 12 0) []).fingerprint
      ≠ sha256Hex lenSha (encryptUpload zeroGCM zeroKEM lenSha
          (List.replicate 32 0) [] (List.replicate 12 0) []).blob
    ∧ (encryptUpload zeroGCM zeroKEM lenSha (List.replicate 32 0) []
        (List.replicate 12 0) []).fingerprintSource
      ≠ (encryptUpload zeroGCM zeroKEM lenSha (List.replicate 32 0) []
        (List.replicate 12 0) []).blob := by
  refine ⟨by decide, by decide⟩

/-- C6 (amended): the `sha256Hash` field is the lowercase hexadecimal
digest of the AES-GCM ciphertext-and-tag bytes only — the stored blob
minus its 12-byte IV prefix — and every character of it is a lowercase
hex digit. -/
theorem fingerprint_of_ciphertext_and_tag (M : GCMModel) (K : KEMModel)
    (sha : List Nat → List Nat) (k pk iv pt : List Nat)
    (hiv : iv.length = 12) :
    (encryptUpload M K sha k pk iv pt).fingerprint
      = sha256Hex sha ((encryptUpload M K sha k pk iv pt).blob.drop 12)
    ∧ (encryptUpload M K sha k pk iv pt).fingerprintSource
      = (encryptUpload M K sha k pk iv pt).blob.drop 12
    ∧ ∀ c ∈ (encryptUpload M K sha k pk iv pt).fingerprint, c ∈ hexDigitChars := by
  have hdrop : (encryptUpload M K sha k pk iv pt).blob.drop 12
      = encryptAES M k iv pt := by
    have hblob : (encryptUpload M K sha k pk iv pt).blob
        = iv ++ encryptAES M k iv pt := rfl
    rw [hblob, ← hiv, List.drop_left]
  refine ⟨by rw [hdrop]; rfl, by rw [hdrop]; rfl, ?_⟩
  intro c hc
  have hc' : c ∈ ((sha (encryptAES M k iv pt)).map toHexByte).flatten := hc
  rw [List.mem_flatten] at hc'
  obtain ⟨l, hl, hcl⟩ := hc'
  rw [List.mem_map] at hl
  obtain ⟨b, _, rfl⟩ := hl
  simp only [toHexByte, List.mem_cons, List.not_mem_nil, or_false] at hcl
  rcases hcl with h | h
  · rw [h]; exact getD_hexDigitChars_mem _
  · rw [h]; exact getD_hexDigitChars_mem _

/-- C6 witness: the amended fingerprint property at a concrete input. -/
theorem fingerprint_of_ciphertext_and_tag_witness :
    (encryptUpload zeroGCM zeroKEM lenSha (List.replicate 32 0) []
        (List.replicate 12 0) [4, 5]).fingerprint
      = sha256Hex lenSha ((encryptUpload zeroGCM zeroKEM lenSha
          (List.replicate 32 0) [] (List.replicate 12 0) [4, 5]).blob.drop 12)
    ∧ (encryptUpload zeroGCM zeroKEM lenSha (List.replicate 32 0) []
        (List.replicate 12 0) [4, 5]).fingerprintSource
      = (encryptUpload zeroGCM zeroKEM lenSha (List.replicate 32 0) []
        (List.replicate 12 0) [4, 5]).blob.drop 12
    ∧ ∀ c ∈ (encryptUpload zeroGCM zeroKEM lenSha (List.replicate 32 0) []
        (List.replicate 12 0) [4, 5]).fingerprint, c ∈ hexDigitChars :=
  fingerprint_of_ciphertext_and_tag zeroGCM zeroKEM lenSha
    (List.replicate 32 0) [] (List.replicate 12 0) [4, 5] (by decide)

/-- C7 counterexample: a 32-byte KEM payload — total length far from
800 — is not rejected: the receive path splits it, decapsulates, and
decrypts all the way to a plaintext.  No BadPayload check exists. -/
theorem receive_no_length_check :
    receiveDecrypt zeroGCM zeroKEM (List.replicate 32 0)
        (List.replicate 12 0
          ++ encryptAES zeroGCM (List.replicate 32 0) (List.replicate 12 0) [5]) []
      = some [5]
    ∧ (List.replicate 32 (0 : Nat)).length ≠ 800 := by
  refine ⟨by decide, by decide⟩

/-- C7 (amended): the receive path splits any payload of length ≥ 32
into a `(length − 32)`-byte kem_ct and the 32-byte suffix as wrapped
key, with no length validation; for an 800-byte payload the kem_ct part
is 768 bytes. -/
theorem receive_split_spec (payload : List Nat) (h : 32 ≤ payload.length) :
    (receiveSplitKem payload).1.length = payload.length - 32
    ∧ (receiveSplitKem payload).2.length = 32
    ∧ (receiveSplitKem payload).1 ++ (receiveSplitKem payload).2 = payload
    ∧ (payload.length = 800 → (receiveSplitKem payload).1.length = 768) := by
  have h1 : (receiveSplitKem payload).1 = payload.take (payload.length - 32) := by
    unfold receiveSplitKem jsSlice
    rw [jsIdx_zero, jsIdx_sub32 _ h, List.drop_zero]
  have h2 : (receiveSplitKem payload).2 = payload.drop (payload.length - 32) := by
    unfold receiveSplitKem jsSlice
    rw [jsIdx_len, jsIdx_sub32 _ h, List.take_length]
  refine ⟨?_, ?_, ?_, ?_⟩
  · rw [h1, List.length_take]; omega
  · rw [h2, List.length_drop]; omega
  · rw [h1, h2, List.take_append_drop]
  · intro h800; rw [h1, List.length_take]; omega

/-- C7 witness: the split of an 800-byte payload. -/
theorem receive_split_spec_witness :
    (receiveSplitKem (List.replicate 800 0)).1.length
        = (List.replicate 800 (0 : Nat)).length - 32
    ∧ (receiveSplitKem (List.replicate 800 0)).2.length = 32
    ∧ (receiveSplitKem (List.replicate 800 0)).1
        ++ (receiveSplitKem (List.replicate 800 0)).2 = List.replicate 800 0
    ∧ ((List.replicate 800 (0 : Nat)).length = 800 →
        (receiveSplitKem (List.replicate 800 0)).1.length = 768) :=
  receive_split_spec (List.replicate 800 0) (by rw [List.length_replicate]; omega)

/-- C8 counterexample: at a plaintext one byte over the 100 MiB bound
the `encrypt` pipeline still runs the key-generation phase and proceeds
all the way to upload — nothing is rejected before the DEK is drawn. -/
theorem oversize_key_drawn :
    EncPhase.genAesKey ∈ encryptTrace (100 * 1024 * 1024 + 1)
    ∧ EncPhase.uploadPhase ∈ encryptTrace (100 * 1024 * 1024 + 1)
    ∧ 100 * 1024 * 1024 < 100 * 1024 * 1024 + 1 := by
  refine ⟨by decide, by decide, by omega⟩

/-- C8 (amended): the `encrypt` pipeline performs no size check at all —
its phase sequence is the same for every plaintext length, and the DEK
generation phase runs for every input. -/
theorem encrypt_no_size_check :
    ∀ n : Nat, encryptTrace n = encryptTrace 0
      ∧ EncPhase.genAesKey ∈ encryptTrace n := by
  intro n
  exact ⟨rfl, by simp [encryptTrace]⟩

/-- C9: logout clears the bearer token and the in-memory user but leaves
the key store untouched: any keypair stored under any researcher id
before logout is still present and identical afterwards. -/
theorem logout_preserves_keystore :
    ∀ (st : ClientState) (uid : String),
      (logout st).token = none
      ∧ (logout st).keyStore = st.keyStore
      ∧ getKyberKeypair uid (logout st) = getKyberKeypair uid st :=
  fun _ _ => ⟨rfl, rfl, rfl⟩

/-- C10: `POST /api/files/receive` succeeds for every caller and every
request body (given only a fresh row id): it inserts a received-file
record with sender `'Unknown'`, recipient the caller, permission
`'download'`, and the supplied share code or a `MANUAL-` placeholder —
without checking that any share with that code exists. -/
theorem receive_unconditional (db : DB) (caller : String) (body : ReceiveBody)
    (now dateStr : String)
    (hfresh : ∀ r ∈ db.received, r.id ≠ "RECV-" ++ now) :
    receiveHandler db caller body now dateStr =
      Except.ok ({ db with received := db.received ++ [recvRow caller body now dateStr] },
                 recvRow caller body now dateStr)
    ∧ (recvRow caller body now dateStr).sender = "Unknown"
    ∧ (recvRow caller body now dateStr).recipient = caller
    ∧ (recvRow caller body now dateStr).permission = "download"
    ∧ (recvRow caller body now dateStr).shareCode
        = (match body.shareCode with
           | some s => if s = "" then "MANUAL-" ++ now else s
           | none => "MANUAL-" ++ now) := by
  refine ⟨?_, rfl, rfl, rfl, rfl⟩
  have hany : (db.received.any fun r => r.id = "RECV-" ++ now) = false := by
    rw [List.any_eq_false]
    intro r hr
    simpa using hfresh r hr
  have h1 : (db.received.filter
      fun r => r.id = "RECV-" ++ now ∧ r.recipient = caller) = [] := by
    rw [List.filter_eq_nil_iff]
    intro r hr
    simp [hfresh r hr]
  have h2 : ([recvRow caller body now dateStr].filter
      fun r => r.id = "RECV-" ++ now ∧ r.recipient = caller)
      = [recvRow caller body now dateStr] := by
    simp [List.filter_cons, recvRow]
  unfold receiveHandler
  rw [hany]
  simp only [Bool.false_eq_true, if_false, List.filter_append, h1, h2,
    List.nil_append, List.head?_cons]

/-- C10 witness: the receive route evaluated at a concrete caller and
body against the empty server state. -/
theorem receive_unconditional_witness :
    receiveHandler dbEmpty "bob" ⟨some "ABC123", some "payload-b64"⟩ "1700" "1-1-2026" =
      Except.ok ({ dbEmpty with received := dbEmpty.received
            ++ [recvRow "bob" ⟨some "ABC123", some "payload-b64"⟩ "1700" "1-1-2026"] },
          recvRow "bob" ⟨some "ABC123", some "payload-b64"⟩ "1700" "1-1-2026")
    ∧ (recvRow "bob" ⟨some "ABC123", some "payload-b64"⟩ "1700" "1-1-2026").sender = "Unknown"
    ∧ (recvRow "bob" ⟨some "ABC123", some "payload-b64"⟩ "1700" "1-1-2026").recipient = "bob"
    ∧ (recvRow "bob" ⟨some "ABC123", some "payload-b64"⟩ "1700" "1-1-2026").permission = "download"
    ∧ (recvRow "bob" ⟨some "ABC123", some "payload-b64"⟩ "1700" "1-1-2026").shareCode
        = (match (⟨some "ABC123", some "payload-b64"⟩ : ReceiveBody).shareCode with
           | some s => if s = "" then "MANUAL-" ++ "1700" else s
           | none => "MANUAL-" ++ "1700") :=
  receive_unconditional dbEmpty "bob" ⟨some "ABC123", some "payload-b64"⟩ "1700" "1-1-2026"
    (by intro r hr; simp [dbEmpty] at hr)

end ByteGuard
